import Mathlib

/-!
Shallow embedding of the csvReport repository (src/main.py).

The program reads CSV files, merges their rows, and generates a
"performance" report: rows are grouped by the `position` column, the
`performance` column is averaged per group, the groups are formatted to two
decimal places, sorted descending by the parsed value of that formatted
average, and numbered from 1.

Numeric model: Python floats are modelled as exact rationals (ℚ); the
claim-relevant cell values and two-decimal outputs are exactly
representable, so no IEEE rounding is involved for any value appearing in a
theorem below.  `float(...)` applied to a plain decimal literal is modelled
by `pyFloat`; the format specifier `:.2f` is modelled by `format2`
(fixed-point, two digits, ties-to-even, matching Python float formatting).
-/

namespace CsvReport

/-- A CSV row: an ordered list of string fields (Python `List[str]`). -/
abbrev Row := List String

/-- A table: the raw list of rows returned by `csv.reader`, the first row
being the header when present (Python `List[List[str]]`). -/
abbrev Table := List Row

/-- The failure modes of the program, one constructor per distinct Python
exception site in src/main.py:
  * `indexOutOfBounds` — `IndexError` from `data[0]` / `row[i]`;
  * `missingColumn c` — the `ValueError` re-raised at main.py:86 when
    `headers.index` fails for column `c`;
  * `invalidValue s` — the `ValueError` raised by `float(s)` (main.py:91);
  * `unknownReport n` — the `ValueError` raised by `Report.generate`
    (main.py:62) when no callable attribute named `n` exists;
  * `typeError n` — a `TypeError` from calling attribute `n` with the wrong
    number of arguments (main.py:64, e.g. `n = "generate"`);
  * `invalidFormat p` — the `ValueError` raised by `CSVReader.read`
    (main.py:30) for a path without the `.csv` suffix;
  * `notFound p` — `FileNotFoundError` from `open` (main.py:32). -/
inductive PyError where
  | indexOutOfBounds : PyError
  | missingColumn (col : String) : PyError
  | invalidValue (cell : String) : PyError
  | unknownReport (name : String) : PyError
  | typeError (name : String) : PyError
  | invalidFormat (path : String) : PyError
  | notFound (path : String) : PyError
deriving DecidableEq, Repr

/-- Value of a list of decimal digit characters, most significant first. -/
def digitsVal (cs : List Char) : Nat :=
  cs.foldl (fun a c => a * 10 + (c.toNat - 48)) 0

/-- All characters are decimal digits. -/
def allDigits (cs : List Char) : Bool :=
  cs.all Char.isDigit

/-- Unsigned decimal literal: `digits`, `digits.digits`, `digits.` or
`.digits` (as accepted by Python `float`), decomposed as
(mantissa, number of fractional digits), so that its exact value is
`mantissa / 10 ^ fracDigits`. -/
def parseUnsigned (cs : List Char) : Option (Nat × Nat) :=
  let intPart := cs.takeWhile (fun c => c ≠ '.')
  match cs.dropWhile (fun c => c ≠ '.') with
  | [] =>
    if intPart ≠ [] ∧ allDigits intPart then some (digitsVal intPart, 0) else none
  | '.' :: frac =>
    if intPart = [] ∧ frac = [] then none
    else if allDigits intPart ∧ allDigits frac then
      some (digitsVal intPart * 10 ^ frac.length + digitsVal frac, frac.length)
    else none
  | _ :: _ => none

/-- Signed decimal literal, as (signed mantissa, number of fractional
digits). -/
def parseSigned (cs : List Char) : Option (Int × Nat) :=
  match cs with
  | '-' :: rest => (parseUnsigned rest).map (fun p => (-(p.1 : Int), p.2))
  | '+' :: rest => (parseUnsigned rest).map (fun p => ((p.1 : Int), p.2))
  | _ => (parseUnsigned cs).map (fun p => ((p.1 : Int), p.2))

/-- Model of Python `float(s)` on the decimal literals this program meets:
optional sign followed by an unsigned decimal literal, read as an exact
rational.  (Exponents, `inf`/`nan` and surrounding whitespace are accepted
by CPython but touched by no claim and not modelled.)  `none` models the
`ValueError` raised when the string does not parse. -/
def pyFloat (s : String) : Option ℚ :=
  (parseSigned s.toList).map (fun p => (p.1 : ℚ) / (10 : ℚ) ^ p.2)

/-- Nearest integer to `q`, ties to even — the rounding used by Python's
fixed-point float formatting on exactly representable values. -/
def roundHalfEven (q : ℚ) : ℤ :=
  let f := ⌊q⌋
  let r := q - (f : ℚ)
  if r < 1/2 then f
  else if 1/2 < r then f + 1
  else if f % 2 = 0 then f else f + 1

/-- Two-digit zero-padded rendering of `r < 100`. -/
def twoDigits (r : Nat) : String :=
  (if r < 10 then "0" else "") ++ toString r

/-- Model of Python `f"{q:.2f}"`: fixed-point, exactly two digits after the
decimal point, ties to even.  (For a negative value rounding to zero CPython
prints "-0.00" while this prints "0.00"; no claim reaches that corner.) -/
def format2 (q : ℚ) : String :=
  let n : ℤ := roundHalfEven (q * 100)
  let m : Nat := n.natAbs
  (if n < 0 then "-" else "") ++ toString (m / 100) ++ "." ++ twoDigits (m % 100)

/-- Arithmetic mean of a list of rationals: `sum(perf) / len(perf)`. -/
def mean (l : List ℚ) : ℚ :=
  l.sum / (l.length : ℚ)

/-- The grouping accumulator `perf_data : dict[str, list[float]]`
(main.py:88), modelled as an insertion-ordered association list, the order
Python dicts preserve. -/
abbrev PerfMap := List (String × List ℚ)

/-- One loop step of main.py:93-95: append `v` to the entry of key `pos`,
creating the entry at the end (dict insertion order) when absent. -/
def insertPerf : PerfMap → String → ℚ → PerfMap
  | [], pos, v => [(pos, [v])]
  | (k, vs) :: rest, pos, v =>
    if k = pos then (k, vs ++ [v]) :: rest
    else (k, vs) :: insertPerf rest pos v

/-- The grouping loop of main.py:89-95: for each row read
`position = row[pos_idx]`, then `performance = float(row[perf_idx])`,
and insert.  A missing cell is the `IndexError` of Python indexing, a
non-numeric cell the `ValueError` of `float`. -/
def collectPerf (posIdx perfIdx : Nat) : List Row → PerfMap → Except PyError PerfMap
  | [], acc => .ok acc
  | row :: rest, acc =>
    match row[posIdx]? with
    | none => .error .indexOutOfBounds
    | some pos =>
      match row[perfIdx]? with
      | none => .error .indexOutOfBounds
      | some cell =>
        match pyFloat cell with
        | none => .error (.invalidValue cell)
        | some v => collectPerf posIdx perfIdx rest (insertPerf acc pos v)

/-- Python `list.index(name)` on the header row: the index of the first
cell equal to `name`, `none` modelling the `ValueError` when absent. -/
def indexOfCol (name : String) : List String → Option Nat
  | [] => none
  | c :: rest => if c = name then some 0 else (indexOfCol name rest).map (fun i => i + 1)

/-- Keys of the accumulator, in insertion order. -/
def keys (m : PerfMap) : List String :=
  m.map Prod.fst

/-- Lookup of the observation list of key `p` (empty when absent). -/
def valsOf : PerfMap → String → List ℚ
  | [], _ => []
  | (k, vs) :: rest, p => if k = p then vs else valsOf rest p

/-- The sort key of main.py:101, `float(x[1])`: the formatted average at
index 1 of an intermediate result row, parsed back to a number.  The
defaults are never used inside `performance`: every intermediate row there
has a `format2` output at index 1, which always parses. -/
def avgKey (r : Row) : ℚ :=
  (pyFloat ((r[1]?).getD "")).getD 0

/-- Comparator for `result.sort(key=lambda x: float(x[1]), reverse=True)`:
a stable descending sort, so `a` may precede `b` exactly when
`avgKey b ≤ avgKey a`. -/
def perfDescLe (a b : Row) : Bool :=
  decide (avgKey b ≤ avgKey a)

/-- Numbering step of main.py:103,
`[[str(i + 1), *row] for i, row in enumerate(result)]`, generalised over
the first number. -/
def numberFrom (n : Nat) : List Row → List Row
  | [] => []
  | r :: rs => (toString n :: r) :: numberFrom (n + 1) rs

/-- `Report.performance` (main.py:67-104): header/rows split, column
lookup via first index of the exact name, grouping, per-group two-decimal
formatted mean, stable descending sort on the parsed formatted average,
and numbering from 1. -/
def Report.performance (data : Table) : Except PyError (List String × Table) :=
  match data with
  | [] => .error .indexOutOfBounds
  | headers :: rows =>
    match indexOfCol "position" headers with
    | none => .error (.missingColumn "position")
    | some posIdx =>
      match indexOfCol "performance" headers with
      | none => .error (.missingColumn "performance")
      | some perfIdx =>
        match collectPerf posIdx perfIdx rows [] with
        | .error e => .error e
        | .ok perfData =>
          let result := perfData.map (fun pv => [pv.1, format2 (mean pv.2)])
          let sorted := result.mergeSort perfDescLe
          .ok (["№", "position", "performance"], numberFrom 1 sorted)

/-- A Python value as seen by the dispatcher's caller: either the
(headers, rows) pair a report staticmethod returns, or some other object —
`None` from `__init__`, a string from `__str__`, a class from `__class__`,
and so on — returned by a non-report callable that `getattr` resolved. -/
inductive PyValue where
  | reportResult (hd : List String) (rows : Table) : PyValue
  | otherObject : PyValue
deriving DecidableEq, Repr

/-- What `getattr(Report, name, None)` may resolve beyond the three
attributes the class body of src/main.py defines: attributes supplied by
the interpreter's object model (inherited from `object`/`type` or added by
the class machinery), such as `__init__`, `mro`, `__class__`, `__str__`,
`__module__`.  `Option InheritedAttr` models the lookup: `none` when no
such attribute exists; `callable f` a truthy callable whose call on the
table behaves as `f` — it may return a non-report object
(`PyValue.otherObject`, e.g. `__init__` returning `None`) or raise
(e.g. `mro` raising `TypeError`); `notCallable` a falsy or non-callable
attribute, on which main.py:61 raises the same `ValueError` as for a
missing attribute.  Which names fall in which case is interpreter-defined,
not fixed by this source file, so it is a parameter of the model. -/
inductive InheritedAttr where
  | callable (f : Table → Except PyError PyValue) : InheritedAttr
  | notCallable : InheritedAttr

/-- `Report.generate` (main.py:43-64):
`method = getattr(cls, report_name, None)`, then
`if not method or not callable(method): raise ValueError(...)`, then
`return method(data)`.  The class body itself defines exactly three
attributes, which shadow any inherited ones:
  * `performance` — the report staticmethod: the call returns its
    (headers, rows) result;
  * `generate` — the classmethod being defined: `getattr` returns it bound
    to the class, and calling it with the single positional argument
    `data` raises `TypeError` (parameter `data` missing) before its body
    runs;
  * `__doc__` — the docstring, a truthy non-callable string: the
    `not callable(method)` branch raises the same `ValueError` as an
    unknown name.
Every other name is looked up in the interpreter-supplied attributes
(`inherited`); only when nothing truthy and callable is found does the
`ValueError` naming the requested report (`unknownReport`) fire. -/
def Report.generate (inherited : String → Option InheritedAttr)
    (name : String) (data : Table) : Except PyError PyValue :=
  if name = "performance" then
    (Report.performance data).map (fun p => .reportResult p.1 p.2)
  else if name = "generate" then .error (.typeError name)
  else if name = "__doc__" then .error (.unknownReport name)
  else
    match inherited name with
    | some (.callable f) => f data
    | some .notCallable => .error (.unknownReport name)
    | none => .error (.unknownReport name)

/-- Modelled CSV text splitting for `list(csv.reader(f))` (main.py:33):
lines split on newline (blank lines dropped), fields split on commas.  The
csv module's quoting and escaping rules are not modelled; no claim depends
on the content parsing. -/
def parseCSV (content : String) : Table :=
  ((content.splitOn "\n").filter (fun l => l ≠ "")).map (fun l => l.splitOn ",")

/-- Python `file_path.endswith(".csv")` (main.py:29): a character-level
suffix test. -/
def hasSuffix (s suffix : String) : Bool :=
  suffix.toList.isSuffixOf s.toList

/-- `CSVReader.read` (main.py:14-33).  The filesystem is a parameter
`fs : String → Option String` (path to content, `none` for a missing
file); the suffix check at main.py:29 happens before `fs` is consulted. -/
def CSVReader.read (fs : String → Option String) (path : String) : Except PyError Table :=
  if hasSuffix path ".csv" = false then .error (.invalidFormat path)
  else
    match fs path with
    | none => .error (.notFound path)
    | some content => .ok (parseCSV content)

/-- One iteration of the merge loop of `Main.run` (main.py:136-139):
`if not all_data: all_data = data else: all_data.extend(data[1:])`. -/
def mergeStep (acc t : Table) : Table :=
  if acc.isEmpty then t else acc ++ t.tail

/-- The merge loop of `Main.run` over the already-read tables, in file
order, starting from the empty accumulator `all_data = []`. -/
def mergeTables (ts : List Table) : Table :=
  ts.foldl mergeStep []

/-- Performance values of the `position` group `p`, read straight off the
input rows: the parsed `performance` cell of every row whose `position`
cell is exactly `p`, in row order.  This is the spec-side description of a
group, used to compare the emitted averages against. -/
def groupVals (posIdx perfIdx : Nat) (rows : List Row) (p : String) : List ℚ :=
  rows.filterMap (fun r =>
    if r[posIdx]? = some p then (r[perfIdx]?).bind pyFloat else none)

/-- The `position` cells present in the data rows, in row order. -/
def positions (posIdx : Nat) (rows : List Row) : List String :=
  rows.filterMap (fun r => r[posIdx]?)

/-- The numeric value of the emitted average cell of a final report row
`[rank, position, average]`: the parsed string at index 2. -/
def outKey (r : Row) : ℚ :=
  (pyFloat ((r[2]?).getD "")).getD 0

/-- The sample table of TestReport (src/test_report.py:35-42). -/
def sampleTable : Table :=
  [["name", "position", "performance"],
   ["Alice", "Backend", "4.8"],
   ["Bob", "Backend", "5.0"],
   ["Charlie", "Frontend", "4.4"],
   ["Diana", "Frontend", "4.6"]]

/-- A table whose two groups have distinct true means that format to the
same two-decimal string: the sort key `float(x[1])` of main.py:101 cannot
tell them apart. -/
def roundTieTable : Table :=
  [["position", "performance"],
   ["A", "4.001"],
   ["B", "4.004"]]

/-! ### Evaluation helpers -/

theorem pyFloat_eq (s : String) (m : Int) (k : Nat)
    (h : parseSigned s.toList = some (m, k)) :
    pyFloat s = some ((m : ℚ) / (10 : ℚ) ^ k) := by
  unfold pyFloat
  rw [h]
  rfl

theorem roundHalfEven_low (q : ℚ) (n : ℤ) (h1 : (n : ℚ) ≤ q)
    (h2 : q < (n : ℚ) + 1/2) :
    roundHalfEven q = n := by
  have hf : ⌊q⌋ = n := by
    rw [Int.floor_eq_iff]
    exact ⟨by exact_mod_cast h1, by linarith⟩
  have h3 : q - (n : ℚ) < 1/2 := by linarith
  simp only [roundHalfEven, hf]
  rw [if_pos h3]

theorem format2_eval (q : ℚ) (n : Nat) (h1 : ((n : ℤ) : ℚ) ≤ q * 100)
    (h2 : q * 100 < ((n : ℤ) : ℚ) + 1/2) :
    format2 q = (if (n : ℤ) < 0 then "-" else "") ++
      toString ((n : ℤ).natAbs / 100) ++ "." ++ twoDigits ((n : ℤ).natAbs % 100) := by
  have hr : roundHalfEven (q * 100) = (n : ℤ) := roundHalfEven_low _ _ h1 h2
  simp only [format2, hr]

/-- Full evaluation of the performance report on the test-suite sample,
the expected output of src/test_report.py:44-50. -/
theorem perf_sample_eval : Report.performance sampleTable =
    .ok (["№", "position", "performance"],
         [["1", "Backend", "4.90"], ["2", "Frontend", "4.50"]]) := by
  have p1 : pyFloat "4.8" = some (24/5) := by
    rw [pyFloat_eq "4.8" 48 1 (by decide)]
    norm_num
  have p2 : pyFloat "5.0" = some 5 := by
    rw [pyFloat_eq "5.0" 50 1 (by decide)]
    norm_num
  have p3 : pyFloat "4.4" = some (22/5) := by
    rw [pyFloat_eq "4.4" 44 1 (by decide)]
    norm_num
  have p4 : pyFloat "4.6" = some (23/5) := by
    rw [pyFloat_eq "4.6" 46 1 (by decide)]
    norm_num
  have hc : collectPerf 1 2
      [["Alice", "Backend", "4.8"], ["Bob", "Backend", "5.0"],
       ["Charlie", "Frontend", "4.4"], ["Diana", "Frontend", "4.6"]] [] =
      .ok [("Backend", [24/5, 5]), ("Frontend", [22/5, 23/5])] := by
    simp [collectPerf, insertPerf, p1, p2, p3, p4]
  have hm1 : mean [(24/5 : ℚ), 5] = 49/10 := by norm_num [mean]
  have hm2 : mean [(22/5 : ℚ), 23/5] = 9/2 := by norm_num [mean]
  have hf1 : format2 (49/10) = "4.90" := by
    rw [format2_eval (49/10) 490 (by norm_num) (by norm_num)]
    decide
  have hf2 : format2 (9/2) = "4.50" := by
    rw [format2_eval (9/2) 450 (by norm_num) (by norm_num)]
    decide
  have hk1 : avgKey ["Backend", "4.90"] = 49/10 := by
    simp [avgKey, pyFloat_eq "4.90" 490 2 (by decide)]
    norm_num
  have hk2 : avgKey ["Frontend", "4.50"] = 9/2 := by
    simp [avgKey, pyFloat_eq "4.50" 450 2 (by decide)]
    norm_num
  have hle : perfDescLe ["Backend", "4.90"] ["Frontend", "4.50"] = true := by
    simp [perfDescLe, hk1, hk2]
    norm_num
  simp [Report.performance, sampleTable, indexOfCol, hc, hm1, hm2, hf1, hf2,
        List.mergeSort, hle, numberFrom]
  exact ⟨by decide, by decide⟩

/-- Full evaluation of the performance report on `roundTieTable`: both
formatted averages are "4.00", the sort key ties, and the stable sort
keeps first-occurrence order, group "A" before group "B". -/
theorem perf_roundTie_eval : Report.performance roundTieTable =
    .ok (["№", "position", "performance"],
         [["1", "A", "4.00"], ["2", "B", "4.00"]]) := by
  have p1 : pyFloat "4.001" = some (4001/1000) := by
    rw [pyFloat_eq "4.001" 4001 3 (by decide)]
    norm_num
  have p2 : pyFloat "4.004" = some (1001/250) := by
    rw [pyFloat_eq "4.004" 4004 3 (by decide)]
    norm_num
  have hc : collectPerf 0 1 [["A", "4.001"], ["B", "4.004"]] [] =
      .ok [("A", [4001/1000]), ("B", [1001/250])] := by
    simp [collectPerf, insertPerf, p1, p2]
  have hm1 : mean [(4001/1000 : ℚ)] = 4001/1000 := by norm_num [mean]
  have hm2 : mean [(1001/250 : ℚ)] = 1001/250 := by norm_num [mean]
  have hf1 : format2 (4001/1000) = "4.00" := by
    rw [format2_eval (4001/1000) 400 (by norm_num) (by norm_num)]
    decide
  have hf2 : format2 (1001/250) = "4.00" := by
    rw [format2_eval (1001/250) 400 (by norm_num) (by norm_num)]
    decide
  have hk1 : avgKey ["A", "4.00"] = 4 := by
    simp [avgKey, pyFloat_eq "4.00" 400 2 (by decide)]
    norm_num
  have hk2 : avgKey ["B", "4.00"] = 4 := by
    simp [avgKey, pyFloat_eq "4.00" 400 2 (by decide)]
    norm_num
  have hle : perfDescLe ["A", "4.00"] ["B", "4.00"] = true := by
    simp [perfDescLe, hk1, hk2]
  simp [Report.performance, roundTieTable, indexOfCol, hc, hm1, hm2, hf1, hf2,
        List.mergeSort, hle, numberFrom]
  exact ⟨by decide, by decide⟩

/-! ### Properties of the grouping accumulator -/

theorem keys_insertPerf (m : PerfMap) (p : String) (v : ℚ) :
    keys (insertPerf m p v) = if p ∈ keys m then keys m else keys m ++ [p] := by
  induction m with
  | nil => simp [insertPerf, keys]
  | cons kv rest ih =>
    obtain ⟨k, vs⟩ := kv
    by_cases hk : k = p
    · subst hk
      simp [insertPerf, keys]
    · have h1 : keys ((k, vs) :: rest) = k :: keys rest := rfl
      have h2 : insertPerf ((k, vs) :: rest) p v = (k, vs) :: insertPerf rest p v := by
        simp [insertPerf, hk]
      have h3 : keys ((k, vs) :: insertPerf rest p v) = k :: keys (insertPerf rest p v) := rfl
      rw [h2, h3, ih, h1]
      by_cases hp : p ∈ keys rest
      · rw [if_pos hp, if_pos (by simp [hp])]
      · rw [if_neg hp, if_neg (by simp [hp, Ne.symm hk])]
        rfl

theorem valsOf_insertPerf (m : PerfMap) (q : String) (v : ℚ) (p : String) :
    valsOf (insertPerf m q v) p = if q = p then valsOf m p ++ [v] else valsOf m p := by
  induction m with
  | nil =>
    by_cases hq : q = p <;> simp [insertPerf, valsOf, hq]
  | cons kv rest ih =>
    obtain ⟨k, vs⟩ := kv
    by_cases hk : k = q
    · subst hk
      by_cases hp : k = p <;> simp [insertPerf, valsOf, hp]
    · by_cases hp : k = p
      · subst hp
        simp [insertPerf, valsOf, hk, Ne.symm hk]
      · simp [insertPerf, valsOf, hk, hp, ih]

theorem keys_insertPerf_nodup (m : PerfMap) (p : String) (v : ℚ)
    (h : (keys m).Nodup) : (keys (insertPerf m p v)).Nodup := by
  rw [keys_insertPerf]
  split_ifs with hp
  · exact h
  · simp [List.nodup_append, h, hp]

theorem keys_insertPerf_toFinset (m : PerfMap) (p : String) (v : ℚ) :
    (keys (insertPerf m p v)).toFinset = insert p (keys m).toFinset := by
  rw [keys_insertPerf]
  split_ifs with hp
  · exact (Finset.insert_eq_self.mpr (List.mem_toFinset.mpr hp)).symm
  · ext x
    simp [or_comm]

theorem insertPerf_length (m : PerfMap) (p : String) (v : ℚ) :
    (insertPerf m p v).length ≤ m.length + 1 := by
  have h1 : (insertPerf m p v).length = (keys (insertPerf m p v)).length := by
    simp [keys]
  have h2 : (keys m).length = m.length := by simp [keys]
  rw [h1, keys_insertPerf]
  split_ifs <;> simp [h2]

theorem collectPerf_cons_inv (posIdx perfIdx : Nat) (row : Row) (rest : List Row)
    (acc m : PerfMap)
    (hok : collectPerf posIdx perfIdx (row :: rest) acc = .ok m) :
    ∃ pos cell v, row[posIdx]? = some pos ∧ row[perfIdx]? = some cell ∧
      pyFloat cell = some v ∧
      collectPerf posIdx perfIdx rest (insertPerf acc pos v) = .ok m := by
  simp only [collectPerf] at hok
  cases hpos : row[posIdx]? with
  | none => simp only [hpos] at hok; exact Except.noConfusion hok
  | some pos =>
    simp only [hpos] at hok
    cases hcell : row[perfIdx]? with
    | none => simp only [hcell] at hok; exact Except.noConfusion hok
    | some cell =>
      simp only [hcell] at hok
      cases hv : pyFloat cell with
      | none => simp only [hv] at hok; exact Except.noConfusion hok
      | some v =>
        simp only [hv] at hok
        exact ⟨pos, cell, v, rfl, rfl, hv, hok⟩

theorem collectPerf_valsOf (posIdx perfIdx : Nat) (rows : List Row) :
    ∀ (acc m : PerfMap), collectPerf posIdx perfIdx rows acc = .ok m →
      ∀ p, valsOf m p = valsOf acc p ++ groupVals posIdx perfIdx rows p := by
  induction rows with
  | nil =>
    intro acc m hok p
    simp only [collectPerf] at hok
    obtain rfl : acc = m := by injection hok
    simp [groupVals]
  | cons row rest ih =>
    intro acc m hok p
    obtain ⟨pos, cell, v, hpos, hcell, hv, hrec⟩ :=
      collectPerf_cons_inv posIdx perfIdx row rest acc m hok
    have hih := ih _ _ hrec p
    rw [hih, valsOf_insertPerf]
    by_cases hpp : pos = p
    · subst hpp
      simp [groupVals, List.filterMap_cons, hpos, hcell, hv]
    · simp [groupVals, List.filterMap_cons, hpos, hcell, hv, hpp]

theorem collectPerf_keys (posIdx perfIdx : Nat) (rows : List Row) :
    ∀ (acc m : PerfMap), collectPerf posIdx perfIdx rows acc = .ok m →
      ((keys acc).Nodup → (keys m).Nodup) ∧
      (keys m).toFinset = (keys acc).toFinset ∪ (positions posIdx rows).toFinset ∧
      m.length ≤ acc.length + rows.length := by
  induction rows with
  | nil =>
    intro acc m hok
    simp only [collectPerf] at hok
    obtain rfl : acc = m := by injection hok
    simp [positions]
  | cons row rest ih =>
    intro acc m hok
    obtain ⟨pos, cell, v, hpos, hcell, hv, hrec⟩ :=
      collectPerf_cons_inv posIdx perfIdx row rest acc m hok
    obtain ⟨ihn, iht, ihl⟩ := ih _ _ hrec
    have hposs : positions posIdx (row :: rest) = pos :: positions posIdx rest := by
      simp [positions, List.filterMap_cons, hpos]
    refine ⟨fun hnd => ihn (keys_insertPerf_nodup _ _ _ hnd), ?_, ?_⟩
    · rw [iht, keys_insertPerf_toFinset, hposs]
      simp [List.toFinset_cons, Finset.insert_union, Finset.union_insert]
    · have hil := insertPerf_length acc pos v
      simp only [List.length_cons]
      omega

/-! ### From the accumulator to the report rows -/

theorem numberFrom_length (l : List Row) : ∀ n, (numberFrom n l).length = l.length := by
  induction l with
  | nil => intro n; rfl
  | cons r rs ih => intro n; simp [numberFrom, ih]

theorem mem_numberFrom (l : List Row) :
    ∀ (n : Nat) (r : Row), r ∈ numberFrom n l →
      ∃ (k : Nat) (y : Row), y ∈ l ∧ r = toString k :: y := by
  induction l with
  | nil => intro n r h; simp [numberFrom] at h
  | cons x xs ih =>
    intro n r h
    simp only [numberFrom, List.mem_cons] at h
    rcases h with h | h
    · exact ⟨n, x, by simp, h⟩
    · obtain ⟨k, y, hy, hr⟩ := ih (n + 1) r h
      exact ⟨k, y, by simp [hy], hr⟩

theorem outKey_cons (s : String) (r : Row) : outKey (s :: r) = avgKey r := by
  simp [outKey, avgKey]

theorem mem_valsOf (m : PerfMap) (p : String) (vs : List ℚ)
    (hmem : (p, vs) ∈ m) (hnd : (keys m).Nodup) : vs = valsOf m p := by
  induction m with
  | nil => simp at hmem
  | cons kv rest ih =>
    obtain ⟨k, ws⟩ := kv
    have hnd' : k ∉ keys rest ∧ (keys rest).Nodup := by
      simpa [keys] using hnd
    rcases List.mem_cons.mp hmem with h | h
    · injection h with h1 h2
      subst h1
      subst h2
      simp [valsOf]
    · have hk : k ≠ p := by
        rintro rfl
        exact hnd'.1 (by simpa [keys] using List.mem_map_of_mem Prod.fst h)
      simp only [valsOf, if_neg hk]
      exact ih h hnd'.2

theorem performance_ok_inv (headers : Row) (rows : List Row) (posIdx perfIdx : Nat)
    (hd : List String) (out : Table)
    (h1 : indexOfCol "position" headers = some posIdx)
    (h2 : indexOfCol "performance" headers = some perfIdx)
    (hok : Report.performance (headers :: rows) = .ok (hd, out)) :
    ∃ m, collectPerf posIdx perfIdx rows [] = .ok m ∧
      hd = ["№", "position", "performance"] ∧
      out = numberFrom 1
        ((m.map (fun pv => [pv.1, format2 (mean pv.2)])).mergeSort perfDescLe) := by
  simp only [Report.performance, h1, h2] at hok
  cases hcol : collectPerf posIdx perfIdx rows [] with
  | error e => rw [hcol] at hok; exact Except.noConfusion hok
  | ok m =>
    rw [hcol] at hok
    simp only [Except.ok.injEq, Prod.mk.injEq] at hok
    exact ⟨m, rfl, hok.1.symm, hok.2.symm⟩

theorem numberFrom_pairwise (l : List Row)
    (hl : l.Pairwise (fun a b => avgKey b ≤ avgKey a)) :
    ∀ n, (numberFrom n l).Pairwise (fun a b => outKey b ≤ outKey a) := by
  induction l with
  | nil => intro n; simp [numberFrom]
  | cons x xs ih =>
    intro n
    rw [List.pairwise_cons] at hl
    simp only [numberFrom, List.pairwise_cons]
    refine ⟨?_, ih hl.2 (n + 1)⟩
    intro y hy
    obtain ⟨k, y', hy', rfl⟩ := mem_numberFrom xs (n + 1) y hy
    rw [outKey_cons, outKey_cons]
    exact hl.1 y' hy'


def posCell (r : Row) : String := (r[1]?).getD ""

theorem numberFrom_map_posCell (l : List Row) :
    ∀ n, (numberFrom n l).map posCell = l.map (fun y => (y[0]?).getD "") := by
  induction l with
  | nil => intro n; rfl
  | cons x xs ih =>
    intro n
    simp only [numberFrom, List.map_cons, ih]
    congr 1
    simp [posCell]

theorem resultRows_map_pos (m : PerfMap) :
    ((m.map (fun pv => [pv.1, format2 (mean pv.2)])).map (fun y => (y[0]?).getD "")) =
      keys m := by
  rw [List.map_map]
  rfl

/-- C1 (amended): the rows returned by the performance report are sorted by
descending numeric value of the emitted two-decimal average cell — the sort
key `float(x[1])` of main.py:101 — not by the groups' exact arithmetic
means: for any adjacent output rows (i, i+1), the parsed average cell of
row i is ≥ that of row i+1.  (When two distinct true means round to the
same two-decimal string the stable sort keeps first-occurrence order, so
the true means may be out of order; see the counterexample.) -/
theorem performance_sorted_desc (headers : Row) (rows : List Row)
    (hd : List String) (out : Table)
    (hok : Report.performance (headers :: rows) = .ok (hd, out)) :
    out.Chain' (fun a b => outKey b ≤ outKey a) := by
  cases hp : indexOfCol "position" headers with
  | none => simp [Report.performance, hp] at hok
  | some posIdx =>
    cases hq : indexOfCol "performance" headers with
    | none => simp [Report.performance, hp, hq] at hok
    | some perfIdx =>
      obtain ⟨m, hcol, hhd, hout⟩ :=
        performance_ok_inv headers rows posIdx perfIdx hd out hp hq hok
      subst hout
      have htrans : ∀ a b c : Row, perfDescLe a b = true → perfDescLe b c = true →
          perfDescLe a c = true := by
        intro a b c hab hbc
        simp only [perfDescLe, decide_eq_true_eq] at hab hbc ⊢
        exact le_trans hbc hab
      have htot : ∀ a b : Row, (perfDescLe a b || perfDescLe b a) = true := by
        intro a b
        simp only [perfDescLe, Bool.or_eq_true, decide_eq_true_eq]
        exact le_total (avgKey b) (avgKey a)
      have hsorted := List.sorted_mergeSort htrans htot
        (m.map (fun pv => [pv.1, format2 (mean pv.2)]))
      have hkey : ((m.map (fun pv => [pv.1, format2 (mean pv.2)])).mergeSort
          perfDescLe).Pairwise (fun a b => avgKey b ≤ avgKey a) := by
        refine hsorted.imp ?_
        intro a b h
        simpa [perfDescLe] using h
      exact (numberFrom_pairwise _ hkey 1).chain'

/-- C3: every output row of the performance report is
`[rank, position, average]` where the average cell is exactly the
arithmetic mean (sum divided by count) of that position group's parsed
performance values, rendered in fixed-point notation with exactly two
digits after the decimal point (`format2`). -/
theorem performance_avg_is_group_mean (headers : Row) (rows : List Row)
    (posIdx perfIdx : Nat) (hd : List String) (out : Table)
    (h1 : indexOfCol "position" headers = some posIdx)
    (h2 : indexOfCol "performance" headers = some perfIdx)
    (hok : Report.performance (headers :: rows) = .ok (hd, out)) :
    ∀ r ∈ out, ∃ (k : Nat) (p : String),
      r = [toString k, p, format2 (mean (groupVals posIdx perfIdx rows p))] := by
  obtain ⟨m, hcol, hhd, hout⟩ :=
    performance_ok_inv headers rows posIdx perfIdx hd out h1 h2 hok
  subst hout
  intro r hr
  obtain ⟨k, y, hy, rfl⟩ := mem_numberFrom _ 1 r hr
  rw [List.mem_mergeSort] at hy
  obtain ⟨pv, hpv, rfl⟩ := List.mem_map.mp hy
  refine ⟨k, pv.1, ?_⟩
  have hnd : (keys m).Nodup :=
    (collectPerf_keys posIdx perfIdx rows [] m hcol).1 (by simp [keys])
  have hvals : pv.2 = valsOf m pv.1 := mem_valsOf m pv.1 pv.2 (by simpa using hpv) hnd
  have hgroup := collectPerf_valsOf posIdx perfIdx rows [] m hcol pv.1
  have hgv : pv.2 = groupVals posIdx perfIdx rows pv.1 := by
    rw [hvals, hgroup]
    simp [valsOf]
  rw [hgv]

/-- C4: the performance report emits exactly one output row per distinct
string value of the `position` column occurring in the data rows — the
output's position cells are a permutation of the distinct input positions —
and the number of output rows never exceeds the number of input data
rows. -/
theorem performance_row_count (headers : Row) (rows : List Row)
    (posIdx perfIdx : Nat) (hd : List String) (out : Table)
    (h1 : indexOfCol "position" headers = some posIdx)
    (h2 : indexOfCol "performance" headers = some perfIdx)
    (hok : Report.performance (headers :: rows) = .ok (hd, out)) :
    out.length = (positions posIdx rows).dedup.length ∧
    (out.map posCell).Perm (positions posIdx rows).dedup ∧
    out.length ≤ rows.length := by
  obtain ⟨m, hcol, hhd, hout⟩ :=
    performance_ok_inv headers rows posIdx perfIdx hd out h1 h2 hok
  obtain ⟨hndf, htf, hlen⟩ := collectPerf_keys posIdx perfIdx rows [] m hcol
  have hnd : (keys m).Nodup := hndf (by simp [keys])
  subst hout
  have hkeysperm : (keys m).Perm (positions posIdx rows).dedup := by
    refine List.perm_of_nodup_nodup_toFinset_eq hnd (List.nodup_dedup _) ?_
    rw [htf]
    ext x
    simp [keys]
  have hperm : ((numberFrom 1 ((m.map (fun pv => [pv.1, format2 (mean pv.2)])).mergeSort
      perfDescLe)).map posCell).Perm (positions posIdx rows).dedup := by
    rw [numberFrom_map_posCell]
    refine List.Perm.trans ?_ hkeysperm
    have hms := (List.mergeSort_perm
      (m.map (fun pv => [pv.1, format2 (mean pv.2)])) perfDescLe).map
      (fun y : Row => (y[0]?).getD "")
    rw [resultRows_map_pos] at hms
    exact hms
  refine ⟨?_, hperm, ?_⟩
  · have := hperm.length_eq
    simpa using this
  · rw [numberFrom_length, List.length_mergeSort, List.length_map]
    simpa using hlen


theorem pyFloat_4001 : pyFloat "4.001" = some (4001/1000) := by
  rw [pyFloat_eq "4.001" 4001 3 (by decide)]
  norm_num

theorem pyFloat_4004 : pyFloat "4.004" = some (1001/250) := by
  rw [pyFloat_eq "4.004" 4004 3 (by decide)]
  norm_num

theorem mergeTables_all_empty (ts : List Table) :
    ∀ ts' : List Table, (∀ u ∈ ts, u = []) → mergeTables (ts ++ ts') = mergeTables ts' := by
  induction ts with
  | nil => intro ts' hts; rfl
  | cons t ts ih =>
    intro ts' hts
    have ht : t = [] := hts t (by simp)
    subst ht
    exact ih ts' (fun u hu => hts u (by simp [hu]))

theorem foldl_mergeStep_head (rest : List Table) :
    ∀ acc : Table, acc ≠ [] → (rest.foldl mergeStep acc).head? = acc.head? := by
  induction rest with
  | nil => intro acc hacc; rfl
  | cons u us ih =>
    intro acc hacc
    obtain ⟨x, xs, rfl⟩ := List.exists_cons_of_ne_nil hacc
    have h1 : mergeStep (x :: xs) u = x :: (xs ++ u.tail) := by
      simp [mergeStep]
    rw [List.foldl_cons, h1, ih _ (by simp)]
    rfl

/-- C6: merging two tables with the same header row and M and N data rows
respectively yields the first table's header followed by the first table's
data rows and then the second's: 1 + M + N rows in total, header taken
from the first file. -/
theorem merge_two_tables (h : Row) (rows1 rows2 : List Row) :
    mergeTables [h :: rows1, h :: rows2] = h :: (rows1 ++ rows2) ∧
    (mergeTables [h :: rows1, h :: rows2]).length = 1 + rows1.length + rows2.length := by
  have he : mergeTables [h :: rows1, h :: rows2] = h :: (rows1 ++ rows2) := by
    simp [mergeTables, mergeStep]
  refine ⟨he, ?_⟩
  rw [he]
  simp [List.length_cons, List.length_append]
  omega

/-- C10: in the merge loop of `Main.run`, the header-keeping role of the
"first file" is held by the first file whose table is non-empty: after any
run of empty tables, the next table is adopted wholesale as the
accumulator — its header row included, not skipped — so the merged result
starts with that table's first row. -/
theorem merge_adopts_first_nonempty (ts : List Table) (t : Table) (rest : List Table)
    (hts : ∀ u ∈ ts, u = []) (ht : t ≠ []) :
    mergeTables (ts ++ t :: rest) = rest.foldl mergeStep t ∧
    (mergeTables (ts ++ t :: rest)).head? = t.head? := by
  have h1 : mergeTables (ts ++ t :: rest) = mergeTables (t :: rest) :=
    mergeTables_all_empty ts (t :: rest) hts
  have h2 : mergeTables (t :: rest) = rest.foldl mergeStep t := rfl
  refine ⟨h1.trans h2, ?_⟩
  rw [h1, h2]
  exact foldl_mergeStep_head rest t ht

theorem merge_adopts_first_nonempty_witness :
    mergeTables ([([] : Table)] ++ [["hdr", "x"]] :: [[["hdr", "x"], ["a", "1"]]]) =
      [[["hdr", "x"], ["a", "1"]]].foldl mergeStep [["hdr", "x"]] ∧
    (mergeTables ([([] : Table)] ++ [["hdr", "x"]] :: [[["hdr", "x"], ["a", "1"]]])).head? =
      ([["hdr", "x"]] : Table).head? :=
  merge_adopts_first_nonempty [[]] [["hdr", "x"]] [[["hdr", "x"], ["a", "1"]]]
    (by simp) (by simp)

/-- C5 (amended): whatever attributes the interpreter supplies,
`Report.generate` invokes the performance report for the name
"performance" and returns its (headers, rows) result; for the name
"generate" — which `getattr` resolves to the bound classmethod itself, a
callable that is not a report function — the call fails with a `TypeError`
(missing argument), not with the `UnknownReport` `ValueError`; and the
`UnknownReport` error naming the requested report is raised for exactly
those names on which `getattr` yields no truthy callable attribute — in
particular for every name that neither the class body nor the
interpreter's object model resolves.  The original claim's "UnknownReport
iff the name is not in {performance}" is refuted by the counterexample:
the implemented-report set does not characterise the error. -/
theorem generate_dispatch (inherited : String → Option InheritedAttr)
    (name : String) (data : Table) :
    Report.generate inherited "performance" data =
      (Report.performance data).map (fun p => PyValue.reportResult p.1 p.2) ∧
    Report.generate inherited "generate" data = .error (.typeError "generate") ∧
    (name ≠ "performance" → name ≠ "generate" →
      (inherited name = none ∨ inherited name = some .notCallable) →
      Report.generate inherited name data = .error (.unknownReport name)) := by
  refine ⟨rfl, rfl, ?_⟩
  intro hp hg hres
  rcases hres with h | h <;> simp [Report.generate, hp, hg, h]

theorem generate_dispatch_witness :
    Report.generate (fun _ => none) "unknown" sampleTable =
      .error (.unknownReport "unknown") ∧
    Report.generate (fun _ => none) "performance" sampleTable =
      (Report.performance sampleTable).map (fun p => PyValue.reportResult p.1 p.2) :=
  ⟨(generate_dispatch (fun _ => none) "unknown" sampleTable).2.2
      (by decide) (by decide) (Or.inl rfl),
   (generate_dispatch (fun _ => none) "unknown" sampleTable).1⟩

theorem generate_reflection_cex :
    ("generate" : String) ≠ "performance" ∧
    Report.generate (fun _ => none) "generate" sampleTable =
      .error (.typeError "generate") ∧
    (Except.error (PyError.typeError "generate") : Except PyError PyValue) ≠
      .error (.unknownReport "generate") := by
  refine ⟨by decide, rfl, by simp⟩

/-- C7: for every path without the ".csv" suffix, `CSVReader.read` fails
with an `InvalidFormat` error naming the path, and the result is
independent of the filesystem — the suffix check happens before any
filesystem access. -/
theorem read_invalid_format (fs : String → Option String) (path : String)
    (h : hasSuffix path ".csv" = false) :
    CSVReader.read fs path = .error (.invalidFormat path) ∧
    (∀ fs2 : String → Option String, CSVReader.read fs path = CSVReader.read fs2 path) := by
  constructor
  · simp [CSVReader.read, h]
  · intro fs2
    simp [CSVReader.read, h]

theorem read_invalid_format_witness :
    (hasSuffix "data.txt" ".csv" = false) ∧
    CSVReader.read (fun _ => none) "data.txt" = .error (.invalidFormat "data.txt") :=
  ⟨by decide, (read_invalid_format (fun _ => none) "data.txt" (by decide)).1⟩

/-- C8: the performance report is deterministic in its input table — the
source mutates neither `data` nor its rows (`data[1:]` copies, `perf_data`
and `result` are fresh), so the embedding is a pure function and two calls
on the same unmodified table yield identical output. -/
theorem performance_deterministic (data : Table)
    (r1 r2 : Except PyError (List String × Table))
    (h1 : Report.performance data = r1) (h2 : Report.performance data = r2) :
    r1 = r2 :=
  h1.symm.trans h2

theorem performance_deterministic_witness :
    (Except.ok (["№", "position", "performance"],
        [["1", "Backend", "4.90"], ["2", "Frontend", "4.50"]]) :
      Except PyError (List String × Table)) =
    .ok (["№", "position", "performance"],
        [["1", "Backend", "4.90"], ["2", "Frontend", "4.50"]]) :=
  performance_deterministic sampleTable _ _ perf_sample_eval perf_sample_eval

/-- C9: on the completely empty table (no rows at all, not even a header)
the performance report raises the out-of-bounds `IndexError` of `data[0]`,
which is neither a `MissingColumn` nor an `InvalidValue` error: a present
header row is an implicit precondition of the aggregator. -/
theorem performance_empty_table :
    Report.performance ([] : Table) = .error PyError.indexOutOfBounds ∧
    (∀ c : String, Report.performance ([] : Table) ≠ .error (.missingColumn c)) ∧
    (∀ s : String, Report.performance ([] : Table) ≠ .error (.invalidValue s)) := by
  refine ⟨rfl, ?_, ?_⟩ <;> intro x h <;> simp [Report.performance] at h

theorem performance_empty_table_witness :
    Report.performance ([] : Table) = .error PyError.indexOutOfBounds :=
  performance_empty_table.1

/-- C2: on the test-suite table with header [name, position, performance]
and rows Alice/Backend/4.8, Bob/Backend/5.0, Charlie/Frontend/4.4,
Diana/Frontend/4.6, the report returns header ["№", "position",
"performance"] and exactly the rows [1, Backend, 4.90] and
[2, Frontend, 4.50], in that order. -/
theorem performance_sample_scenario : Report.performance sampleTable =
    .ok (["№", "position", "performance"],
         [["1", "Backend", "4.90"], ["2", "Frontend", "4.50"]]) :=
  perf_sample_eval

/-- C1 (counterexample): on `roundTieTable` the report succeeds, its first
output row is group "A" and its second is group "B", yet the true
arithmetic mean of group "A" (4.001) is strictly below that of group "B"
(4.004): adjacent output rows are not ordered by descending true group
mean, because the sort key is the two-decimal formatted average ("4.00"
for both) and the stable sort keeps insertion order. -/
theorem performance_true_mean_cex :
    Report.performance roundTieTable =
      .ok (["№", "position", "performance"], [["1", "A", "4.00"], ["2", "B", "4.00"]]) ∧
    indexOfCol "position" ["position", "performance"] = some 0 ∧
    indexOfCol "performance" ["position", "performance"] = some 1 ∧
    mean (groupVals 0 1 [["A", "4.001"], ["B", "4.004"]] "A") <
      mean (groupVals 0 1 [["A", "4.001"], ["B", "4.004"]] "B") := by
  refine ⟨perf_roundTie_eval, by decide, by decide, ?_⟩
  have e1 : groupVals 0 1 [["A", "4.001"], ["B", "4.004"]] "A" = [4001/1000] := by
    simp [groupVals, List.filterMap_cons, pyFloat_4001, pyFloat_4004]
  have e2 : groupVals 0 1 [["A", "4.001"], ["B", "4.004"]] "B" = [1001/250] := by
    simp [groupVals, List.filterMap_cons, pyFloat_4001, pyFloat_4004]
  rw [e1, e2]
  norm_num [mean]

theorem performance_sorted_desc_witness :
    List.Chain' (fun a b => outKey b ≤ outKey a)
      [["1", "Backend", "4.90"], ["2", "Frontend", "4.50"]] :=
  performance_sorted_desc ["name", "position", "performance"]
    [["Alice", "Backend", "4.8"], ["Bob", "Backend", "5.0"],
     ["Charlie", "Frontend", "4.4"], ["Diana", "Frontend", "4.6"]]
    ["№", "position", "performance"] _ perf_sample_eval

theorem performance_avg_is_group_mean_witness :
    ∃ (k : Nat) (p : String),
      ["1", "Backend", "4.90"] =
        [toString k, p, format2 (mean (groupVals 1 2
          [["Alice", "Backend", "4.8"], ["Bob", "Backend", "5.0"],
           ["Charlie", "Frontend", "4.4"], ["Diana", "Frontend", "4.6"]] p))] :=
  performance_avg_is_group_mean ["name", "position", "performance"]
    [["Alice", "Backend", "4.8"], ["Bob", "Backend", "5.0"],
     ["Charlie", "Frontend", "4.4"], ["Diana", "Frontend", "4.6"]] 1 2
    ["№", "position", "performance"]
    [["1", "Backend", "4.90"], ["2", "Frontend", "4.50"]]
    (by decide) (by decide) perf_sample_eval
    ["1", "Backend", "4.90"] (by decide)

theorem performance_row_count_witness :
    ([["1", "Backend", "4.90"], ["2", "Frontend", "4.50"]] : Table).length =
      (positions 1 [["Alice", "Backend", "4.8"], ["Bob", "Backend", "5.0"],
        ["Charlie", "Frontend", "4.4"], ["Diana", "Frontend", "4.6"]]).dedup.length ∧
    (([["1", "Backend", "4.90"], ["2", "Frontend", "4.50"]] : Table).map posCell).Perm
      (positions 1 [["Alice", "Backend", "4.8"], ["Bob", "Backend", "5.0"],
        ["Charlie", "Frontend", "4.4"], ["Diana", "Frontend", "4.6"]]).dedup ∧
    ([["1", "Backend", "4.90"], ["2", "Frontend", "4.50"]] : Table).length ≤
      ([["Alice", "Backend", "4.8"], ["Bob", "Backend", "5.0"],
        ["Charlie", "Frontend", "4.4"], ["Diana", "Frontend", "4.6"]] : List Row).length :=
  performance_row_count ["name", "position", "performance"]
    [["Alice", "Backend", "4.8"], ["Bob", "Backend", "5.0"],
     ["Charlie", "Frontend", "4.4"], ["Diana", "Frontend", "4.6"]] 1 2
    ["№", "position", "performance"]
    [["1", "Backend", "4.90"], ["2", "Frontend", "4.50"]]
    (by decide) (by decide) perf_sample_eval

end CsvReport
